import Mathlib

/-!
Verification of the option-portfolio construction core of the
`constantinides_2013_options` repository against its specification.

The executable code of the repository is the notebook
`src/notebooks/portfolio_repl.ipynb`, holding four functions:
`bs_elasticity`, `kernel_weights`, `construct_portfolio` and
`build_portfolios`.  These are embedded below over the real numbers:
float arithmetic is idealised as `ℝ` (so division by zero yields `0`
rather than `nan`, which is noted wherever it matters), `numpy` /
`pandas` columns become `List ℝ`, a Python tuple becomes a `List ℝ`
(a Python tuple is a sequence, and the arity of the returned tuple is
itself under scrutiny in one of the claims), and a Python function that
can raise becomes `Option`-valued, `none` standing for an uncaught
exception.  `numpy` broadcasting of one-dimensional arrays is embedded
faithfully, shape mismatch included, since the notebook's kernel
weighting hinges on it.

The quote-filtration pipeline (`QuoteFilterPipeline`,
`ImpliedRateResolver`, `SurfaceFitter`) has no code under `src/`; it is
modelled from the specification's own words further below (over `ℚ`, so
that it is fully executable), each such definition carrying a
`Modelled from the spec:` doc comment.
-/

open MeasureTheory

noncomputable section

/-- Density of the standard normal distribution, the function under
`scipy.stats.norm`. -/
def stdGaussianPdf (t : ℝ) : ℝ :=
  (Real.sqrt (2 * Real.pi))⁻¹ * Real.exp (-(t ^ 2) / 2)

/-- Cumulative distribution function of the standard normal
distribution; embeds `scipy.stats.norm.cdf`. -/
def normCdf (x : ℝ) : ℝ :=
  ∫ t in Set.Iic x, stdGaussianPdf t

/-- Option type flag; the notebook passes the strings `'call'` and
`'put'`. -/
inductive OptionType where
  | call
  | put
deriving DecidableEq, BEq

/-- Embeds `bs_elasticity(S, K, T, r, sigma, option_type)` from the
notebook.  The Python function returns the 2-tuple
`((delta * S / price), price)`; a Python tuple is embedded as a list of
reals so that its arity is part of the modelled value. -/
def bs_elasticity (S K T r sigma : ℝ) (option_type : OptionType) : List ℝ :=
  let d1 := (Real.log (S / K) + (r + 0.5 * sigma ^ 2) * T) / (sigma * Real.sqrt T)
  match option_type with
  | OptionType.call =>
    let price := S * normCdf d1 - K * Real.exp (-r * T) * normCdf (d1 - sigma * Real.sqrt T)
    let delta := normCdf d1
    let res : List ℝ := [delta * S / price, price]
    res
  | OptionType.put =>
    let price := K * Real.exp (-r * T) * normCdf (-d1 + sigma * Real.sqrt T) - S * normCdf (-d1)
    let delta := -(normCdf (-d1))
    let res : List ℝ := [delta * S / price, price]
    res

/-- Elementwise division of two one-dimensional `numpy` arrays with
`numpy`'s broadcasting rule: shapes `(n,)` and `(m,)` are compatible
exactly when `n = m` or one of them is `1`; otherwise the operation
raises a `ValueError`, embedded as `none`. -/
def bdiv (xs ys : List ℝ) : Option (List ℝ) :=
  if xs.length = ys.length then some (List.zipWith (fun a b => a / b) xs ys)
  else if xs.length = 1 then some (ys.map (fun b => xs.headI / b))
  else if ys.length = 1 then some (xs.map (fun a => a / ys.headI))
  else none

/-- Embeds `kernel_weights(moneyness_grid, maturity_grid, k_s, ttm, bw_m, bw_t)`
from the notebook.  `np.column_stack` of the two equal-length columns
followed by `cdist(grid, point, 'euclidean')[:, 0]` yields the list of
euclidean distances; `dists / np.array([bw_m, bw_t])` is the broadcast
division embedded by `bdiv`; `.sum()` collapses it to a scalar, so
`weights = np.exp(-0.5 * ...)` is a scalar and `weights / weights.sum()`
is the scalar `weights / weights`.  The successful result is therefore a
single real, never a per-quote vector. -/
def kernel_weights (moneyness_grid maturity_grid : List ℝ) (k_s ttm bw_m bw_t : ℝ) :
    Option ℝ :=
  let grid := List.zip moneyness_grid maturity_grid
  let dists := grid.map (fun p => Real.sqrt ((p.1 - k_s) ^ 2 + (p.2 - ttm) ^ 2))
  (bdiv dists [bw_m, bw_t]).map (fun q =>
    let weights := Real.exp (-0.5 * q.sum)
    weights / weights)

/-- Row of the filtered-quote table consumed by `construct_portfolio`:
the columns the notebook reads (`option_type`, `moneyness`, `ttm`,
`underlying`, `strike`, `iv`, `daily_return`) plus the per-quote
`implied_rate` column that the upstream pipeline appends to the quote
table (per the data model of the spec) and that `construct_portfolio`
never reads. -/
structure Quote where
  option_type : OptionType
  moneyness : ℝ
  ttm : ℝ
  underlying : ℝ
  strike : ℝ
  iv : ℝ
  daily_return : ℝ
  implied_rate : ℝ

/-- Elasticity of a single quote: first component of the tuple returned
by `bs_elasticity`, as unpacked by `elast, price = bs_elasticity(...)`
inside `construct_portfolio` (with `T = ttm / 365`). -/
def elasticity_of (q : Quote) (option_type : OptionType) (r : ℝ) : ℝ :=
  (bs_elasticity q.underlying q.strike (q.ttm / 365) r q.iv option_type).headI

/-- Embeds `construct_portfolio(data, k_s_target, ttm_target, option_type, r)`
from the notebook.  The scalar produced by `kernel_weights` is broadcast
by `subset.assign(weight=weights)` to every row of the subset; rows with
`weight > 0.01` are kept; the kept weights are renormalised by their
sum; the result is the sum of `leverage_return * weight` with
`leverage_return = daily_return / elast`.  An exception escaping
`kernel_weights` propagates, hence the `Option`. -/
def construct_portfolio (data : List Quote) (k_s_target ttm_target : ℝ)
    (option_type : OptionType) (r : ℝ) : Option ℝ :=
  let subset := data.filter (fun q => q.option_type == option_type)
  (kernel_weights (subset.map Quote.moneyness) (subset.map Quote.ttm)
      k_s_target ttm_target 0.0125 10).map (fun w =>
    let weighted := subset.map (fun q => (q, w))
    let kept := weighted.filter (fun p => 0.01 < p.2)
    let wsum := (kept.map (fun p => p.2)).sum
    (kept.map (fun p => (p.1.daily_return / elasticity_of p.1 option_type r) * (p.2 / wsum))).sum)

/-- One row of the output panel of `build_portfolios`: the dict
`{'type': ..., 'moneyness': ..., 'ttm': ..., 'return': ...}` appended by
the notebook's main loop (`return` is a Lean keyword, so the field is
named `ret`). -/
structure PortfolioRecord where
  otype : OptionType
  moneyness : ℝ
  ttm : ℝ
  ret : ℝ

/-- Runs `construct_portfolio` over a list of
`(option_type, moneyness_target, maturity_target)` triples, appending
one record per triple; an exception in any call aborts the whole loop
with no output, as an uncaught Python exception would. -/
def recordsFor (option_data : List Quote) :
    List (OptionType × ℝ × ℝ) → Option (List PortfolioRecord)
  | [] => some []
  | t :: rest =>
    match construct_portfolio option_data t.2.1 t.2.2 t.1 0.01,
        recordsFor option_data rest with
    | some r, some recs => some (⟨t.1, t.2.1, t.2.2, r⟩ :: recs)
    | _, _ => none

/-- Embeds `build_portfolios(option_data, m_grid, ttm_grid, option_types)`
from the notebook: the triple loop iterates option types outermost, then
moneyness targets, then maturity targets, calling `construct_portfolio`
with its default rate `r=0.01` for each triple. -/
def build_portfolios (option_data : List Quote) (m_grid ttm_grid : List ℝ)
    (option_types : List OptionType) : Option (List PortfolioRecord) :=
  recordsFor option_data
    (option_types.flatMap (fun ty => m_grid.flatMap (fun ks => ttm_grid.map (fun t => (ty, ks, t)))))

/-- Modelled from the spec: the ElasticityEngine contract of §4.4,
`price_and_elasticity(S, K, T_years, r, sigma, option_type) ->
(elasticity, theoretical_price, delta)`, stated with the spec's own
closed-form Black-Scholes formulas.  This is the spec-side definition of
a refinement claim; it is to be compared with `bs_elasticity`, which is
embedded from the notebook. -/
def price_and_elasticity (S K T r sigma : ℝ) (option_type : OptionType) : ℝ × ℝ × ℝ :=
  let d1 := (Real.log (S / K) + (r + sigma ^ 2 / 2) * T) / (sigma * Real.sqrt T)
  match option_type with
  | OptionType.call =>
    let price := S * normCdf d1 - K * Real.exp (-r * T) * normCdf (d1 - sigma * Real.sqrt T)
    let delta := normCdf d1
    (delta * S / price, price, delta)
  | OptionType.put =>
    let price := K * Real.exp (-r * T) * normCdf (-d1 + sigma * Real.sqrt T) - S * normCdf (-d1)
    let delta := -(normCdf (-d1))
    (delta * S / price, price, delta)

/-- Three concrete call quotes in one bucket (moneyness 0.9 / 1.0 / 1.1,
maturities 30 / 60 / 90 days); any realistic bucket has at least this
many members. -/
def dataThreeCalls : List Quote :=
  [⟨OptionType.call, 0.9, 30, 100, 90, 0.2, 0.01, 0⟩,
   ⟨OptionType.call, 1.0, 60, 100, 100, 0.2, 0.01, 0⟩,
   ⟨OptionType.call, 1.1, 90, 100, 110, 0.2, 0.01, 0⟩]

/-- A quote table holding a single put, so that the call bucket is empty
on this date. -/
def dataPutOnly : List Quote :=
  [⟨OptionType.put, 1, 30, 100, 100, 0.2, 0.01, 0⟩]

/-- A single call quote sitting exactly on the bucket target
(moneyness 1, maturity 30 days). -/
def qCall : Quote := ⟨OptionType.call, 1, 30, 100, 100, 0.5, 0.1, 0⟩

/-- A single put quote sitting exactly on the bucket target. -/
def qPut : Quote := ⟨OptionType.put, 1, 30, 100, 100, 0.5, 0.2, 0⟩

/-- A quote table with one call and one put, both on the bucket target;
on this table every bucket call of the notebook happens to succeed. -/
def dataCallPut : List Quote := [qCall, qPut]

/-- Surviving members of a bucket, given the scalar `w` produced by
`kernel_weights`: the notebook lines `subset = subset.assign(weight=weights)`
followed by `subset = subset[subset['weight'] > 0.01]`. -/
def surviving_members (data : List Quote) (ty : OptionType) (w : ℝ) : List (Quote × ℝ) :=
  ((data.filter (fun q => q.option_type == ty)).map (fun q => (q, w))).filter
    (fun p => 0.01 < p.2)

/-- Renormalised weight of a surviving member: the notebook line
`subset['weight'] /= subset['weight'].sum()`. -/
def renormalized_weight (data : List Quote) (ty : OptionType) (w : ℝ) (p : Quote × ℝ) : ℝ :=
  p.2 / ((surviving_members data ty w).map (fun p => p.2)).sum

/-- The panel that `build_portfolios` produces on `dataCallPut` with the
singleton grids: one record per (type, moneyness, maturity) triple, type
outermost. -/
def panelCP : List PortfolioRecord :=
  [⟨OptionType.call, 1, 30, qCall.daily_return / elasticity_of qCall OptionType.call 0.01⟩,
   ⟨OptionType.put, 1, 30, qPut.daily_return / elasticity_of qPut OptionType.put 0.01⟩]

end

/-- Modelled from the spec: one record of the tabular quote feed of §6
(date, option_type, strike, expiration, bid, ask, implied_vol,
underlying_level, volume, days_to_maturity) together with the derived
`implied_rate` field that the implied-rate stage repairs (§3: derived
fields are appended, raw fields stay immutable).  Floats are idealised
as `ℚ` so the whole pipeline is executable. -/
structure Quote9 where
  qdate : ℕ
  option_type : OptionType
  strike : ℚ
  expiration : ℕ
  bid : ℚ
  ask : ℚ
  implied_vol : ℚ
  underlying : ℚ
  volume : ℚ
  days : ℚ
  implied_rate : ℚ
deriving DecidableEq

/-- Mid price of a quote (midpoint of bid and ask). -/
def Quote9.mid (q : Quote9) : ℚ := (q.bid + q.ask) / 2

/-- Moneyness: strike divided by the underlying level (glossary of the
spec). -/
def Quote9.moneyness (q : Quote9) : ℚ := q.strike / q.underlying

/-- Key of the identical filter: (type, strike, expiration, price). -/
def dupKey (q : Quote9) : OptionType × ℚ × ℕ × ℚ :=
  (q.option_type, q.strike, q.expiration, q.mid)

/-- First-occurrence deduplication by key. -/
def dedupByKey : List Quote9 → List (OptionType × ℚ × ℕ × ℚ) → List Quote9
  | [], _ => []
  | q :: rest, seen =>
    if seen.contains (dupKey q) then dedupByKey rest seen
    else q :: dedupByKey rest (dupKey q :: seen)

/-- Modelled from the spec, stage 1 (Identical): drop exact duplicate
(type, strike, expiration, price) rows, keeping the first. -/
def stage_identical (qs : List Quote9) : List Quote9 := dedupByKey qs []

/-- Key of the identical-except-price filter: (type, strike,
expiration). -/
def groupKey (q : Quote9) : OptionType × ℚ × ℕ :=
  (q.option_type, q.strike, q.expiration)

/-- Distance of a quote's implied vol to that of its nearest
moneyness-neighbor (a quote of the same type and expiration with a
different strike); `0` when no neighbor exists. -/
def ivDistance (qs : List Quote9) (q : Quote9) : ℚ :=
  let nbrs := qs.filter (fun p =>
    decide (p.option_type = q.option_type) && decide (p.expiration = q.expiration) &&
      decide (p.strike ≠ q.strike))
  match nbrs with
  | [] => 0
  | n0 :: rest =>
    let best := (n0 :: rest).foldl (fun b p =>
      if |p.moneyness - q.moneyness| < |b.moneyness - q.moneyness| then p else b) n0
    |q.implied_vol - best.implied_vol|

/-- Modelled from the spec, stage 2 (Identical-except-price): among rows
sharing (type, strike, expiration) keep the one whose implied vol is
nearest to its moneyness-neighbors' implied vol, first occurrence
winning ties. -/
def stage_price_dup (qs : List Quote9) : List Quote9 :=
  (qs.enum.filter (fun iq =>
    qs.enum.all (fun jp =>
      !(decide (groupKey jp.2 = groupKey iq.2)) || decide (jp.1 = iq.1) ||
        decide (ivDistance qs iq.2 < ivDistance qs jp.2) ||
        (decide (ivDistance qs iq.2 = ivDistance qs jp.2) && decide (iq.1 < jp.1))))).map
    (fun iq => iq.2)

/-- Modelled from the spec, stage 3 (Zero-bid): drop rows with
bid = 0. -/
def stage_zero_bid (qs : List Quote9) : List Quote9 :=
  qs.filter (fun q => q.bid ≠ 0)

/-- Modelled from the spec, stage 4 (Maturity bounds): drop
days_to_maturity < 7 or > 180. -/
def stage_maturity (qs : List Quote9) : List Quote9 :=
  qs.filter (fun q => 7 ≤ q.days ∧ q.days ≤ 180)

/-- Modelled from the spec, stage 5 (IV bounds): drop implied_vol < 0.05
or > 1.00. -/
def stage_iv (qs : List Quote9) : List Quote9 :=
  qs.filter (fun q => (1/20 : ℚ) ≤ q.implied_vol ∧ q.implied_vol ≤ 1)

/-- Modelled from the spec, stage 6 (Moneyness bounds): drop
moneyness < 0.8 or > 1.2. -/
def stage_moneyness (qs : List Quote9) : List Quote9 :=
  qs.filter (fun q => (4/5 : ℚ) ≤ q.moneyness ∧ q.moneyness ≤ 6/5)

/-- Modelled from the spec: put-call parity `C - P = S - K·D` with the
simple-discount convention `D = 1 - r·T` (the spec names parity but
fixes no compounding convention; this choice keeps the rate rational
while preserving the sign and order of implied rates), `T` in years
(days / 365). -/
def parityRate (c p : Quote9) : ℚ :=
  (1 - (c.underlying - c.mid + p.mid) / c.strike) / (c.days / 365)

/-- The matching quote of the opposite type with the same (date, strike,
expiration), when present (first match). -/
def counterpart (qs : List Quote9) (q : Quote9) : Option Quote9 :=
  qs.find? (fun p =>
    decide (p.option_type ≠ q.option_type) && decide (p.qdate = q.qdate) &&
      decide (p.strike = q.strike) && decide (p.expiration = q.expiration))

/-- Parity-implied rate of a quote that belongs to a matched put-call
pair. -/
def directRate (qs : List Quote9) (q : Quote9) : Option ℚ :=
  (counterpart qs q).map (fun p =>
    match q.option_type with
    | OptionType.call => parityRate q p
    | OptionType.put => parityRate p q)

/-- Near-the-money band of the ImpliedRateResolver: moneyness in
[0.95, 1.05]. -/
def nearMoneyB (q : Quote9) : Bool :=
  decide ((19/20 : ℚ) ≤ q.moneyness) && decide (q.moneyness ≤ (21/20 : ℚ))

/-- Insertion into a sorted list of rationals. -/
def insertSorted (x : ℚ) : List ℚ → List ℚ
  | [] => [x]
  | y :: ys => if x ≤ y then x :: y :: ys else y :: insertSorted x ys

/-- Insertion sort (kept structural so that evaluation by the kernel is
possible). -/
def sortRates (l : List ℚ) : List ℚ := l.foldr insertSorted []

/-- Median of a list of rationals: middle element of the sorted list,
or the average of the two middle elements for an even length. -/
def medianOf (l : List ℚ) : Option ℚ :=
  let s := sortRates l
  if s.length = 0 then none
  else if s.length % 2 = 1 then some (s.getD (s.length / 2) 0)
  else some ((s.getD (s.length / 2 - 1) 0 + s.getD (s.length / 2) 0) / 2)

/-- Parity rates of the near-the-money quotes of one (date, expiration)
cell. -/
def nearRatesFor (qs : List Quote9) (d e : ℕ) : List ℚ :=
  (qs.filter (fun q =>
    decide (q.qdate = d) && decide (q.expiration = e) && nearMoneyB q)).filterMap
    (fun q => directRate qs q)

/-- First-occurrence deduplication of (day, maturity) keys, kept
structural so the kernel can evaluate it. -/
def dedupKeysAux : List (ℕ × ℕ) → List (ℕ × ℕ) → List (ℕ × ℕ)
  | [], _ => []
  | k :: rest, seen =>
    if seen.contains k then dedupKeysAux rest seen
    else k :: dedupKeysAux rest (k :: seen)

/-- The distinct (date, expiration) keys of a quote set, in order of
first appearance. -/
def maturityKeys (qs : List Quote9) : List (ℕ × ℕ) :=
  dedupKeysAux (qs.map (fun q => (q.qdate, q.expiration))) []

/-- Per-(date, expiration) medians of near-the-money parity rates, for
the keys where at least one such rate exists. -/
def medianTable (qs : List Quote9) : List ((ℕ × ℕ) × ℚ) :=
  (maturityKeys qs).filterMap (fun k =>
    (medianOf (nearRatesFor qs k.1 k.2)).map (fun m => (k, m)))

/-- Lexicographic order on (day, maturity) keys. -/
def keyLt (a b : ℕ × ℕ) : Bool :=
  decide (a.1 < b.1) || (decide (a.1 = b.1) && decide (a.2 < b.2))

/-- Insertion into a key list sorted by day then maturity. -/
def insertKeySorted (x : ℕ × ℕ) : List (ℕ × ℕ) → List (ℕ × ℕ)
  | [] => [x]
  | y :: ys => if keyLt x y then x :: y :: ys else y :: insertKeySorted x ys

/-- Sort keys by day then maturity. -/
def sortKeys (l : List (ℕ × ℕ)) : List (ℕ × ℕ) := l.foldr insertKeySorted []

/-- Modelled from the spec: linear interpolation of the missing medians
over the computed median table, ordered by day then maturity (§4.2).
The missing key takes the value interpolated linearly, by position in
the ordered key list, between the nearest known entries below and
above; a single-sided neighbour's value is carried over, and an empty
table yields 0. -/
def interpAt (table : List ((ℕ × ℕ) × ℚ)) (keys : List (ℕ × ℕ)) (k : ℕ × ℕ) : ℚ :=
  let pos := keys.enum
  let known := pos.filterMap (fun ik =>
    (table.find? (fun kv => decide (kv.1 = ik.2))).map (fun kv => (ik.1, kv.2)))
  let i := ((pos.find? (fun ik => decide (ik.2 = k))).map (fun ik => ik.1)).getD 0
  let below := known.filter (fun nv => decide (nv.1 ≤ i))
  let above := known.filter (fun nv => decide (i ≤ nv.1))
  match below.getLast?, above.head? with
  | some av, some bv =>
    if bv.1 = av.1 then av.2
    else av.2 + (bv.2 - av.2) * ((i : ℚ) - (av.1 : ℚ)) / ((bv.1 : ℚ) - (av.1 : ℚ))
  | some av, none => av.2
  | none, some bv => bv.2
  | none, none => 0

/-- Modelled from the spec, §4.2 (ImpliedRateResolver): a near-the-money
quote of a matched pair keeps its own parity rate; every other quote
takes the per-(date, maturity) median of the near-the-money rates; a
cell with no near-the-money observation is interpolated across
maturities and days. -/
def resolvedRate (qs : List Quote9) (q : Quote9) : ℚ :=
  match directRate qs q, nearMoneyB q with
  | some r, true => r
  | _, _ =>
    match medianOf (nearRatesFor qs q.qdate q.expiration) with
    | some m => m
    | none => interpAt (medianTable qs) (sortKeys (maturityKeys qs)) (q.qdate, q.expiration)

/-- Modelled from the spec, stage 7 (Implied-rate): invoke the resolver,
assigning every row its resolved rate, then drop rows whose resolved
rate is negative. -/
def stage_implied_rate (qs : List Quote9) : List Quote9 :=
  (qs.map (fun q => { q with implied_rate := resolvedRate qs q })).filter
    (fun q => 0 ≤ q.implied_rate)

/-- Intrinsic value of an option quote. -/
def intrinsic (q : Quote9) : ℚ :=
  match q.option_type with
  | OptionType.call => max (q.underlying - q.strike) 0
  | OptionType.put => max (q.strike - q.underlying) 0

/-- Modelled from the spec, stage 8 (Negative-time-value): drop rows
whose time value (price minus intrinsic) is negative. -/
def stage_time_value (qs : List Quote9) : List Quote9 :=
  qs.filter (fun q => 0 ≤ q.mid - intrinsic q)

/-- Quotes of the same date, maturity and option type as a given quote:
the cell on which one volatility curve is fitted. -/
def surfaceGroup (qs : List Quote9) (q : Quote9) : List Quote9 :=
  qs.filter (fun p =>
    decide (p.qdate = q.qdate) && decide (p.expiration = q.expiration) &&
      decide (p.option_type = q.option_type))

/-- Least-squares quadratic fit `y = a0 + a1 x + a2 x^2` by the normal
equations, solved by Cramer's rule; `none` when the system is
degenerate. -/
def lsqQuadCoeffs (xy : List (ℚ × ℚ)) : Option (ℚ × ℚ × ℚ) :=
  let n : ℚ := xy.length
  let s1 := (xy.map (fun p => p.1)).sum
  let s2 := (xy.map (fun p => p.1 ^ 2)).sum
  let s3 := (xy.map (fun p => p.1 ^ 3)).sum
  let s4 := (xy.map (fun p => p.1 ^ 4)).sum
  let b0 := (xy.map (fun p => p.2)).sum
  let b1 := (xy.map (fun p => p.1 * p.2)).sum
  let b2 := (xy.map (fun p => p.1 ^ 2 * p.2)).sum
  let det := n * (s2 * s4 - s3 * s3) - s1 * (s1 * s4 - s3 * s2) + s2 * (s1 * s3 - s2 * s2)
  if det = 0 then none
  else some
    ((b0 * (s2 * s4 - s3 * s3) - s1 * (b1 * s4 - s3 * b2) + s2 * (b1 * s3 - s2 * b2)) / det,
     (n * (b1 * s4 - s3 * b2) - b0 * (s1 * s4 - s3 * s2) + s2 * (s1 * b2 - b1 * s2)) / det,
     (n * (s2 * b2 - s3 * b1) - s1 * (s1 * b2 - b1 * s2) + b0 * (s1 * s3 - s2 * s2)) / det)

/-- Value of a fitted quadratic at a point. -/
def fittedAt (c : ℚ × ℚ × ℚ) (x : ℚ) : ℚ := c.1 + c.2.1 * x + c.2.2 * x ^ 2

/-- Configured minimum point count of the SurfaceFitter (§4.3). -/
def surfaceMinPoints : ℕ := 5

/-- Configured outlier threshold of the SurfaceFitter (§4.3): three
residual standard deviations. -/
def surfaceSigmaMult : ℚ := 3

/-- Modelled from the spec, §4.3 (SurfaceFitter): flag a quote whose
residual against the per-(date, maturity, type) least-squares quadratic
volatility curve exceeds `surfaceSigmaMult` residual standard
deviations; below `surfaceMinPoints` points nothing is flagged.  The
criterion is stated with squares (`res² · n > mult² · Σ res²`) so it
stays within `ℚ`; the curve is fitted on the implied vol itself (the
spec's log transform is monotone and the executable model keeps the
arithmetic rational). -/
def surfaceOutlier (qs : List Quote9) (q : Quote9) : Bool :=
  let g := surfaceGroup qs q
  if g.length < surfaceMinPoints then false
  else
    match lsqQuadCoeffs (g.map (fun p => (p.moneyness, p.implied_vol))) with
    | none => false
    | some c =>
      let ss := ((g.map (fun p => p.implied_vol - fittedAt c p.moneyness)).map
        (fun x => x ^ 2)).sum
      let res := q.implied_vol - fittedAt c q.moneyness
      decide (res ^ 2 * (g.length : ℚ) > surfaceSigmaMult ^ 2 * ss)

/-- Modelled from the spec, stage 9 (Surface-fit): drop the rows the
SurfaceFitter flags as outliers. -/
def stage_surface (qs : List Quote9) : List Quote9 :=
  qs.filter (fun q => !(surfaceOutlier qs q))

/-- Configured deviation threshold of the put-call parity filter. -/
def parityThreshold : ℚ := 10

/-- Modelled from the spec, stage 10 (Put-call parity): pair quotes by
(date, strike, expiration), compute the parity-implied rate, and drop
paired rows whose rate deviates beyond the configured threshold from
the per-date median of those rates; unpaired rows are untouched. -/
def stage_parity (qs : List Quote9) : List Quote9 :=
  qs.filter (fun q =>
    match directRate qs q with
    | none => true
    | some r =>
      match medianOf (qs.filterMap (fun p =>
        if p.qdate = q.qdate then directRate qs p else none)) with
      | none => true
      | some m => decide (|r - m| ≤ parityThreshold))

/-- Modelled from the spec, §4.1: the full ordered list of the ten
filter stages of the QuoteFilterPipeline. -/
def fullPipeline (qs : List Quote9) : List Quote9 :=
  stage_parity (stage_surface (stage_time_value (stage_implied_rate (stage_moneyness
    (stage_iv (stage_maturity (stage_zero_bid (stage_price_dup (stage_identical qs)))))))))

/-- A seven-quote single-date cross-section: three near-the-money
put-call pairs (strikes 96, 100, 104) and one out-of-band call
(strike 110).  The pair at strike 96 has a negative parity rate. -/
def qs9 : List Quote9 :=
  [⟨0, OptionType.call, 96, 0, 4, 6, 1/5, 100, 1, 30, 0⟩,
   ⟨0, OptionType.put, 96, 0, 9, 11, 1/5, 100, 1, 30, 0⟩,
   ⟨0, OptionType.call, 100, 0, 4, 6, 1/5, 100, 1, 30, 0⟩,
   ⟨0, OptionType.put, 100, 0, 2, 4, 1/5, 100, 1, 30, 0⟩,
   ⟨0, OptionType.call, 104, 0, 8, 10, 1/5, 100, 1, 30, 0⟩,
   ⟨0, OptionType.put, 104, 0, 3, 5, 1/5, 100, 1, 30, 0⟩,
   ⟨0, OptionType.call, 110, 0, 1/2, 3/2, 1/5, 100, 1, 30, 0⟩]

/-- Reduction lemmas for the derived boolean equality on `OptionType`,
used when evaluating the notebook on concrete quote tables. -/
@[simp] theorem beq_call_call : (OptionType.call == OptionType.call) = true := rfl

/-- Boolean equality reduction on `OptionType`. -/
@[simp] theorem beq_put_put : (OptionType.put == OptionType.put) = true := rfl

/-- Boolean equality reduction on `OptionType`. -/
@[simp] theorem beq_call_put : (OptionType.call == OptionType.put) = false := rfl

/-- Boolean equality reduction on `OptionType`. -/
@[simp] theorem beq_put_call : (OptionType.put == OptionType.call) = false := rfl

/-- C2: the claim says `kernel_weights` computes a bivariate Gaussian
kernel weight per quote and returns a weight vector with one entry per
quote summing to 1.  On a bucket of three quotes the broadcast
`dists / np.array([bw_m, bw_t])` pits shape `(3,)` against shape `(2,)`
and raises a `ValueError`; no weight vector exists at all. -/
theorem kernel_weights_shape_bug :
    kernel_weights [0.9, 1.0, 1.1] [30, 60, 90] 1 30 0.0125 10 = none := by
  simp [kernel_weights, bdiv]

/-- C3: the claim says `construct_portfolio` drops exactly the members
with normalized weight below 1% and renormalises the rest.  On a bucket
holding three call quotes the kernel-weight broadcast raises before any
thresholding can happen, and the whole call aborts. -/
theorem construct_portfolio_three_quotes_aborts :
    construct_portfolio dataThreeCalls 1 30 OptionType.call 0.01 = none := rfl

/-- C5: the claim says a bucket/date with no surviving member yields an
explicit gap while other buckets still produce records.  With a quote
table holding only a put, the call bucket is empty; `kernel_weights`
then raises on shapes `(0,)` versus `(2,)` and the exception aborts the
whole `build_portfolios` loop: not even the healthy put bucket gets a
record. -/
theorem build_portfolios_empty_bucket_aborts :
    build_portfolios dataPutOnly [1] [30] [OptionType.call, OptionType.put] = none := rfl

/-- C6 (counterexample): at the invalid input `T_years = 0` the claim
demands a `ValueError`-equivalent; `bs_elasticity` has no validation and
returns a plain value (in exact-real semantics with total division the
pair `(0, 0)`; in `numpy`, silent `nan`s — either way a value, not an
error). -/
theorem bs_elasticity_zero_maturity_returns_value :
    bs_elasticity 100 100 0 0.01 1 OptionType.call = [0, 0] := by
  norm_num [bs_elasticity]

/-- C6 (amended): `bs_elasticity` performs no input validation at all:
for every at-the-money input with `T_years = 0` — an invalid input per
the claim — it silently returns the value `(0, 0)` produced by the
formulas under total division, for calls and puts alike, and no error is
ever signalled. -/
theorem bs_elasticity_no_validation (S r sigma : ℝ) (ty : OptionType) :
    bs_elasticity S S 0 r sigma ty = [0, 0] := by
  cases ty <;> norm_num [bs_elasticity]

/-- C1 (counterexample): the claim says `bs_elasticity` returns the
triple `(elasticity, theoretical_price, delta)` of the spec contract.
At a concrete valid input the returned tuple has two components, so it
equals no triple of reals; the delta is not returned. -/
theorem bs_elasticity_not_a_triple :
    ¬ ∃ t : ℝ × ℝ × ℝ,
      bs_elasticity 100 100 1 0.01 0.2 OptionType.call = [t.1, t.2.1, t.2.2] := by
  rintro ⟨t, ht⟩
  have hlen := congrArg List.length ht
  simp [bs_elasticity] at hlen

/-- C1 (amended): for every input, `bs_elasticity` returns exactly the
first two components — elasticity and theoretical price — of the spec's
`price_and_elasticity` triple, computed by the spec's closed-form
Black-Scholes formulas (`d1`, call/put price, delta, and
`elasticity = delta * S / price`); the delta itself is not part of the
returned tuple. -/
theorem bs_elasticity_matches_contract_pair (S K T r sigma : ℝ) (ty : OptionType) :
    bs_elasticity S K T r sigma ty =
      [(price_and_elasticity S K T r sigma ty).1,
       (price_and_elasticity S K T r sigma ty).2.1] := by
  have h : (0.5 : ℝ) * sigma ^ 2 = sigma ^ 2 / 2 := by ring
  cases ty <;> simp [bs_elasticity, price_and_elasticity, h]

/-- C10: `construct_portfolio` never reads the per-quote `implied_rate`
column: rewriting that column arbitrarily (by any function of the quote)
leaves the result unchanged, for every quote table, bucket target,
option type and scalar rate `r` — the Black-Scholes step uses only the
single scalar `r` passed to the call. -/
theorem construct_portfolio_ignores_implied_rate (data : List Quote) (f : Quote → ℝ)
    (ks t r : ℝ) (ty : OptionType) :
    construct_portfolio (data.map (fun q => { q with implied_rate := f q })) ks t ty r =
      construct_portfolio data ks t ty r := by
  unfold construct_portfolio
  simp only [List.filter_map, List.map_map, Function.comp_def]
  rfl

/-- C4: whenever `construct_portfolio` completes, its value is the sum,
over the surviving members of the bucket, of the renormalised weight
times the leverage-adjusted return `daily_return / elasticity`, the
elasticity being the Black-Scholes elasticity from `bs_elasticity`. -/
theorem construct_portfolio_weighted_leverage_sum
    (data : List Quote) (ks t r w : ℝ) (ty : OptionType)
    (hw : kernel_weights ((data.filter (fun q => q.option_type == ty)).map Quote.moneyness)
        ((data.filter (fun q => q.option_type == ty)).map Quote.ttm) ks t 0.0125 10 = some w)
    (hne : surviving_members data ty w ≠ []) :
    construct_portfolio data ks t ty r =
      some (((surviving_members data ty w).map (fun p =>
        renormalized_weight data ty w p *
          (p.1.daily_return / elasticity_of p.1 ty r))).sum) := by
  simp only [construct_portfolio]
  rw [hw]
  simp only [Option.map_some']
  congr 1
  simp only [surviving_members, renormalized_weight]
  refine congrArg List.sum (List.map_congr_left ?_)
  intro p _
  ring

/-- Witness for C4 at a concrete one-member bucket: the kernel scalar is
`1`, the surviving set is nonempty, and the theorem applies. -/
theorem construct_portfolio_weighted_leverage_sum_witness :
    kernel_weights ((dataCallPut.filter (fun q => q.option_type == OptionType.call)).map Quote.moneyness)
        ((dataCallPut.filter (fun q => q.option_type == OptionType.call)).map Quote.ttm) 1 30 0.0125 10 = some 1 ∧
    surviving_members dataCallPut OptionType.call 1 ≠ [] ∧
    construct_portfolio dataCallPut 1 30 OptionType.call 0.01 =
      some (((surviving_members dataCallPut OptionType.call 1).map (fun p =>
        renormalized_weight dataCallPut OptionType.call 1 p *
          (p.1.daily_return / elasticity_of p.1 OptionType.call 0.01))).sum) := by
  have hw : kernel_weights ((dataCallPut.filter (fun q => q.option_type == OptionType.call)).map Quote.moneyness)
      ((dataCallPut.filter (fun q => q.option_type == OptionType.call)).map Quote.ttm) 1 30 0.0125 10 = some 1 := by
    norm_num [kernel_weights, bdiv, dataCallPut, qCall, qPut, Real.sqrt_zero, Real.exp_zero,
      List.filter_cons, List.filter_nil]
  have hne : surviving_members dataCallPut OptionType.call 1 ≠ [] := by
    norm_num [surviving_members, dataCallPut, qCall, qPut, List.filter_cons]
  exact ⟨hw, hne, construct_portfolio_weighted_leverage_sum dataCallPut 1 30 0.01 1 OptionType.call hw hne⟩

/-- Helper for C8: a successful run of the record loop yields one record
per requested triple, in order, each carrying that triple's identifiers
and its `construct_portfolio` value. -/
theorem recordsFor_spec (data : List Quote) (trips : List (OptionType × ℝ × ℝ))
    (recs : List PortfolioRecord) (h : recordsFor data trips = some recs) :
    recs.map (fun rec => (rec.otype, rec.moneyness, rec.ttm)) = trips ∧
    ∀ rec ∈ recs, construct_portfolio data rec.moneyness rec.ttm rec.otype 0.01 = some rec.ret := by
  induction trips generalizing recs with
  | nil =>
    simp only [recordsFor, Option.some.injEq] at h
    subst h
    simp
  | cons t rest ih =>
    rw [recordsFor] at h
    cases hc : construct_portfolio data t.2.1 t.2.2 t.1 0.01 <;> rw [hc] at h
    · exact absurd h (by simp)
    case some rv =>
      cases hr : recordsFor data rest <;> rw [hr] at h
      · exact absurd h (by simp)
      case some rb =>
        simp only [Option.some.injEq] at h
        subst h
        obtain ⟨ih1, ih2⟩ := ih rb hr
        refine ⟨by simp [ih1], ?_⟩
        intro rec hrec
        rcases List.mem_cons.mp hrec with hhead | htail
        · subst hhead
          exact hc
        · exact ih2 rec htail

/-- C8 (amended): whenever `build_portfolios` completes, the panel holds
exactly one record per (option_type, moneyness_target, maturity_target)
triple of the grid cross product, in the deterministic order option type
outermost, then moneyness, then maturity, each record carrying that
triple's identifiers and its computed return. -/
theorem build_portfolios_full_grid
    (data : List Quote) (m_grid ttm_grid : List ℝ) (option_types : List OptionType)
    (panel : List PortfolioRecord)
    (h : build_portfolios data m_grid ttm_grid option_types = some panel) :
    panel.map (fun rec => (rec.otype, rec.moneyness, rec.ttm)) =
      option_types.flatMap (fun ty => m_grid.flatMap (fun ks => ttm_grid.map (fun t => (ty, ks, t)))) ∧
    ∀ rec ∈ panel, construct_portfolio data rec.moneyness rec.ttm rec.otype 0.01 = some rec.ret :=
  recordsFor_spec data _ panel h

/-- C8 (counterexample): as stated, the claim quantifies over every
input quote table; on a table whose call bucket holds three quotes the
kernel-weight broadcast raises and `build_portfolios` produces no record
at all for the lone grid triple, rather than exactly one. -/
theorem build_portfolios_aborts_on_three_quotes :
    build_portfolios dataThreeCalls [1] [30] [OptionType.call] = none := rfl

/-- Witness for C8 on a table where every bucket succeeds: the panel is
produced and lists the cross-product triples in order. -/
theorem build_portfolios_full_grid_witness :
    build_portfolios dataCallPut [1] [30] [OptionType.call, OptionType.put] = some panelCP ∧
    panelCP.map (fun rec => (rec.otype, rec.moneyness, rec.ttm)) =
      [(OptionType.call, 1, 30), (OptionType.put, 1, 30)] := by
  have hEval : build_portfolios dataCallPut [1] [30] [OptionType.call, OptionType.put] = some panelCP := by
    norm_num [build_portfolios, recordsFor, construct_portfolio, kernel_weights, bdiv,
      dataCallPut, panelCP, qCall, qPut, Real.sqrt_zero, Real.exp_zero,
      List.filter_cons, List.filter_nil]
  refine ⟨hEval, ?_⟩
  have h2 := (build_portfolios_full_grid dataCallPut [1] [30]
    [OptionType.call, OptionType.put] panelCP hEval).1
  simpa using h2


/-- Positivity of the standard normal density. -/
theorem stdGaussianPdf_pos (t : ℝ) : 0 < stdGaussianPdf t := by
  have h2pi : (0 : ℝ) < 2 * Real.pi := by positivity
  exact mul_pos (inv_pos.mpr (Real.sqrt_pos.mpr h2pi)) (Real.exp_pos _)

/-- The standard normal density is integrable. -/
theorem integrable_stdGaussianPdf : Integrable stdGaussianPdf := by
  have h : Integrable (fun t : ℝ => Real.exp (-(1 / 2 : ℝ) * t ^ 2)) :=
    integrable_exp_neg_mul_sq (by norm_num)
  have h2 := h.const_mul (Real.sqrt (2 * Real.pi))⁻¹
  refine h2.congr (Filter.Eventually.of_forall (fun t => ?_))
  simp only [stdGaussianPdf]
  congr 1
  ring

/-- The standard normal density integrates to one. -/
theorem integral_stdGaussianPdf : ∫ t, stdGaussianPdf t = 1 := by
  have h2pi : (0 : ℝ) < 2 * Real.pi := by positivity
  have hg := integral_gaussian (1 / 2)
  have h1 : ∫ t, stdGaussianPdf t =
      (Real.sqrt (2 * Real.pi))⁻¹ * ∫ t : ℝ, Real.exp (-(1 / 2 : ℝ) * t ^ 2) := by
    rw [← integral_mul_left]
    refine integral_congr_ae (Filter.Eventually.of_forall (fun t => ?_))
    simp only [stdGaussianPdf]
    congr 1
    ring
  rw [h1, hg]
  have : Real.pi / (1 / 2) = 2 * Real.pi := by ring
  rw [this]
  exact inv_mul_cancel₀ (ne_of_gt (Real.sqrt_pos.mpr h2pi))

/-- The standard normal density is integrable on every set. -/
theorem integrableOn_stdGaussianPdf (s : Set ℝ) : IntegrableOn stdGaussianPdf s :=
  integrable_stdGaussianPdf.integrableOn

/-- The normal CDF is monotone. -/
theorem normCdf_mono : Monotone normCdf := by
  intro x y hxy
  exact setIntegral_mono_set (integrableOn_stdGaussianPdf _)
    (Filter.Eventually.of_forall (fun t => (stdGaussianPdf_pos t).le))
    (HasSubset.Subset.eventuallyLE (Set.Iic_subset_Iic.mpr hxy))

/-- The normal CDF is bounded by one. -/
theorem normCdf_le_one (x : ℝ) : normCdf x ≤ 1 := by
  rw [← integral_stdGaussianPdf]
  exact setIntegral_le_integral integrable_stdGaussianPdf
    (Filter.Eventually.of_forall (fun t => (stdGaussianPdf_pos t).le))

/-- The normal CDF is strictly positive. -/
theorem normCdf_pos (x : ℝ) : 0 < normCdf x := by
  rw [normCdf, setIntegral_pos_iff_support_of_nonneg_ae
    (Filter.Eventually.of_forall (fun t => (stdGaussianPdf_pos t).le))
    (integrableOn_stdGaussianPdf _)]
  have hsupp : Function.support stdGaussianPdf = Set.univ := by
    ext t
    simp [Function.mem_support, (stdGaussianPdf_pos t).ne']
  rw [hsupp, Set.univ_inter, Real.volume_Iic]
  exact ENNReal.zero_lt_top

/-- The normal CDF is nonnegative. -/
theorem normCdf_nonneg (x : ℝ) : 0 ≤ normCdf x := (normCdf_pos x).le

/-- Value of the normal CDF at zero, by symmetry of the density. -/
theorem normCdf_zero : normCdf 0 = 1 / 2 := by
  have hsplit : normCdf 0 + ∫ t in Set.Ioi (0 : ℝ), stdGaussianPdf t = 1 := by
    rw [normCdf, intervalIntegral.integral_Iic_add_Ioi (integrableOn_stdGaussianPdf _)
      (integrableOn_stdGaussianPdf _), integral_stdGaussianPdf]
  have hrefl : ∫ t in Set.Ioi (0 : ℝ), stdGaussianPdf t = normCdf 0 := by
    have heven : ∀ t : ℝ, stdGaussianPdf (-t) = stdGaussianPdf t := by
      intro t
      simp [stdGaussianPdf, neg_sq]
    have h1 : ∫ t in Set.Ioi (0 : ℝ), stdGaussianPdf t =
        ∫ t in Set.Ioi (0 : ℝ), stdGaussianPdf (-t) := by
      refine setIntegral_congr_fun measurableSet_Ioi (fun t _ => ?_)
      rw [heven]
    rw [h1, integral_comp_neg_Ioi, neg_zero]
    rfl
  rw [hrefl] at hsplit
  linarith

/-- Translation of a set integral of the density. -/
theorem shifted_setIntegral (x a : ℝ) :
    ∫ t in Set.Iic x, stdGaussianPdf (t - a) = ∫ t in Set.Iic (x - a), stdGaussianPdf t := by
  rw [← integral_indicator measurableSet_Iic, ← integral_indicator measurableSet_Iic]
  have hind : (Set.Iic x).indicator (fun t => stdGaussianPdf (t - a)) =
      fun t => (Set.Iic (x - a)).indicator stdGaussianPdf (t - a) := by
    funext t
    by_cases ht : t ≤ x
    · rw [Set.indicator_of_mem (Set.mem_Iic.mpr ht),
        Set.indicator_of_mem (Set.mem_Iic.mpr (by linarith))]
    · rw [Set.indicator_of_not_mem (fun hmem => ht (Set.mem_Iic.mp hmem)),
        Set.indicator_of_not_mem (fun hmem => ht (by have := Set.mem_Iic.mp hmem; linarith))]
  rw [hind, integral_sub_right_eq_self]

/-- Exponential tilt of the standard normal density. -/
theorem exp_factor (x a t : ℝ) :
    Real.exp (a ^ 2 / 2 - a * x) * stdGaussianPdf (t - a) =
      stdGaussianPdf t * Real.exp (a * (t - x)) := by
  simp only [stdGaussianPdf]
  rw [mul_left_comm, ← Real.exp_add, mul_assoc, ← Real.exp_add]
  exact congrArg (fun z => (Real.sqrt (2 * Real.pi))⁻¹ * Real.exp z) (by ring)

/-- Key Black-Scholes inequality: a discounted shift of the normal CDF
lies strictly below the CDF itself.  It yields positivity of both the
call and the put closed-form prices. -/
theorem normCdf_shift_lt (x a : ℝ) (ha : 0 < a) :
    Real.exp (a ^ 2 / 2 - a * x) * normCdf (x - a) < normCdf x := by
  have hpdf_int : IntegrableOn stdGaussianPdf (Set.Iic x) := integrableOn_stdGaussianPdf _
  have h1 : Real.exp (a ^ 2 / 2 - a * x) * normCdf (x - a) =
      ∫ t in Set.Iic x, stdGaussianPdf t * Real.exp (a * (t - x)) := by
    rw [normCdf, ← shifted_setIntegral x a, ← integral_mul_left]
    exact setIntegral_congr_fun measurableSet_Iic (fun t _ => exp_factor x a t)
  have hg_int : IntegrableOn (fun t => stdGaussianPdf t * Real.exp (a * (t - x))) (Set.Iic x) := by
    have hshift : Integrable (fun t : ℝ => stdGaussianPdf (t - a)) :=
      integrable_stdGaussianPdf.comp_sub_right a
    have hcm := hshift.const_mul (Real.exp (a ^ 2 / 2 - a * x))
    exact (hcm.congr (Filter.Eventually.of_forall (fun t => exp_factor x a t))).integrableOn
  have hnonneg : 0 ≤ᵐ[volume.restrict (Set.Iic x)]
      fun t => stdGaussianPdf t - stdGaussianPdf t * Real.exp (a * (t - x)) := by
    refine (ae_restrict_iff' measurableSet_Iic).mpr (Filter.Eventually.of_forall (fun t ht => ?_))
    have hexp : Real.exp (a * (t - x)) ≤ 1 := by
      rw [Real.exp_le_one_iff]
      have := Set.mem_Iic.mp ht
      nlinarith
    show 0 ≤ stdGaussianPdf t - stdGaussianPdf t * Real.exp (a * (t - x))
    nlinarith [mul_nonneg (stdGaussianPdf_pos t).le (sub_nonneg.mpr hexp)]
  have hdiff : 0 < ∫ t in Set.Iic x,
      (stdGaussianPdf t - stdGaussianPdf t * Real.exp (a * (t - x))) := by
    rw [setIntegral_pos_iff_support_of_nonneg_ae hnonneg (hpdf_int.sub hg_int)]
    have hsub : Set.Iio x ⊆
        Function.support (fun t => stdGaussianPdf t - stdGaussianPdf t * Real.exp (a * (t - x))) ∩
          Set.Iic x := by
      intro t ht
      have htx : t < x := Set.mem_Iio.mp ht
      constructor
      · have hexp : Real.exp (a * (t - x)) < 1 := by
          rw [Real.exp_lt_one_iff]
          nlinarith
        have : 0 < stdGaussianPdf t - stdGaussianPdf t * Real.exp (a * (t - x)) := by
          nlinarith [stdGaussianPdf_pos t]
        exact Function.mem_support.mpr this.ne'
      · exact Set.mem_Iic.mpr htx.le
    refine lt_of_lt_of_le ?_ (measure_mono hsub)
    rw [Real.volume_Iio]
    exact ENNReal.zero_lt_top
  rw [integral_sub hpdf_int hg_int] at hdiff
  rw [h1]
  have : (∫ t in Set.Iic x, stdGaussianPdf t) = normCdf x := rfl
  linarith [hdiff]

/-- Discounting identity tying the strike, the rate and the `d1` of the
notebook's Black-Scholes formula together. -/
theorem bs_discount_identity (S K T r sigma : ℝ) (hS : 0 < S) (hK : 0 < K)
    (hT : 0 < T) (hsig : 0 < sigma) :
    K * Real.exp (-r * T) =
      S * Real.exp ((sigma * Real.sqrt T) ^ 2 / 2 -
        (sigma * Real.sqrt T) *
          ((Real.log (S / K) + (r + 0.5 * sigma ^ 2) * T) / (sigma * Real.sqrt T))) := by
  have ha : (0 : ℝ) < sigma * Real.sqrt T := mul_pos hsig (Real.sqrt_pos.mpr hT)
  have hAD : (sigma * Real.sqrt T) *
      ((Real.log (S / K) + (r + 0.5 * sigma ^ 2) * T) / (sigma * Real.sqrt T)) =
      Real.log (S / K) + (r + 0.5 * sigma ^ 2) * T := by
    field_simp
  have hsq : (sigma * Real.sqrt T) ^ 2 = sigma ^ 2 * T := by
    rw [mul_pow, Real.sq_sqrt hT.le]
  rw [hAD, hsq]
  have harg : sigma ^ 2 * T / 2 - (Real.log (S / K) + (r + 0.5 * sigma ^ 2) * T) =
      -Real.log (S / K) + -(r * T) := by ring
  rw [harg, Real.exp_add, Real.exp_neg, Real.exp_log (div_pos hS hK), inv_div]
  rw [neg_mul]
  field_simp

/-- C7 (amended): for every valid input the call elasticity returned by
`bs_elasticity` is strictly greater than 1; the put elasticity is
strictly negative, but not in general less than -1 (see the
counterexample: deep in-the-money puts land in the interval (-1, 0)). -/
theorem bs_elasticity_leverage_direction (S K T r sigma : ℝ) (hS : 0 < S) (hK : 0 < K)
    (hT : 0 < T) (hsig : 0 < sigma) (hr : 0 ≤ r) :
    1 < (bs_elasticity S K T r sigma OptionType.call).headI ∧
    (bs_elasticity S K T r sigma OptionType.put).headI < 0 := by
  have ha : (0 : ℝ) < sigma * Real.sqrt T := mul_pos hsig (Real.sqrt_pos.mpr hT)
  simp only [bs_elasticity, List.headI]
  set A := sigma * Real.sqrt T with hA
  set D1 := (Real.log (S / K) + (r + 0.5 * sigma ^ 2) * T) / A with hD1
  have hid : K * Real.exp (-r * T) = S * Real.exp (A ^ 2 / 2 - A * D1) :=
    bs_discount_identity S K T r sigma hS hK hT hsig
  have key1 : Real.exp (A ^ 2 / 2 - A * D1) * normCdf (D1 - A) < normCdf D1 :=
    normCdf_shift_lt D1 A ha
  constructor
  · have hPc_pos : 0 < S * normCdf D1 - K * Real.exp (-r * T) * normCdf (D1 - A) := by
      rw [hid]
      nlinarith [mul_pos hS (sub_pos.mpr key1)]
    have hPc_lt : S * normCdf D1 - K * Real.exp (-r * T) * normCdf (D1 - A) <
        normCdf D1 * S := by
      nlinarith [mul_pos (mul_pos hK (Real.exp_pos (-r * T))) (normCdf_pos (D1 - A))]
    exact (one_lt_div hPc_pos).mpr hPc_lt
  · have key2 : Real.exp (A ^ 2 / 2 - A * (-D1 + A)) * normCdf (-D1 + A - A) <
        normCdf (-D1 + A) := normCdf_shift_lt (-D1 + A) A ha
    have he1 : A ^ 2 / 2 - A * (-D1 + A) = A * D1 - A ^ 2 / 2 := by ring
    have he2 : -D1 + A - A = -D1 := by ring
    rw [he1, he2] at key2
    have hS_eq : S = K * Real.exp (-r * T) * Real.exp (A * D1 - A ^ 2 / 2) := by
      rw [hid, mul_assoc, ← Real.exp_add]
      have : A ^ 2 / 2 - A * D1 + (A * D1 - A ^ 2 / 2) = 0 := by ring
      rw [this, Real.exp_zero, mul_one]
    have hPp_pos : 0 < K * Real.exp (-r * T) * normCdf (-D1 + A) - S * normCdf (-D1) := by
      rw [hS_eq]
      nlinarith [mul_pos (mul_pos hK (Real.exp_pos (-r * T))) (sub_pos.mpr key2)]
    have hnum_pos : 0 < normCdf (-D1) * S := mul_pos (normCdf_pos (-D1)) hS
    have hfrac : 0 < normCdf (-D1) * S /
        (K * Real.exp (-r * T) * normCdf (-D1 + A) - S * normCdf (-D1)) :=
      div_pos hnum_pos hPp_pos
    have heq : -normCdf (-D1) * S /
        (K * Real.exp (-r * T) * normCdf (-D1 + A) - S * normCdf (-D1)) =
        -(normCdf (-D1) * S /
          (K * Real.exp (-r * T) * normCdf (-D1 + A) - S * normCdf (-D1))) := by
      ring
    rw [heq]
    linarith

/-- Witness for C7 at the at-the-money point S = K = 1, T = 1, r = 0,
sigma = 1. -/
theorem bs_elasticity_leverage_direction_witness :
    (0 : ℝ) < 1 ∧ (0 : ℝ) ≤ 0 ∧
    (1 < (bs_elasticity 1 1 1 0 1 OptionType.call).headI ∧
      (bs_elasticity 1 1 1 0 1 OptionType.put).headI < 0) :=
  ⟨by norm_num, le_refl 0,
    bs_elasticity_leverage_direction 1 1 1 0 1 (by norm_num) (by norm_num) (by norm_num)
      (by norm_num) (le_refl 0)⟩

/-- C7 (counterexample): at the valid deep in-the-money put input
S = 1, K = 100, T = 1, r = 0, sigma = 1 the put elasticity returned by
`bs_elasticity` is strictly greater than -1, refuting the claim that
every valid put elasticity is below -1. -/
theorem put_elasticity_deep_itm_above_neg_one :
    -1 < (bs_elasticity 1 100 1 0 1 OptionType.put).headI := by
  simp only [bs_elasticity, List.headI]
  norm_num [Real.sqrt_one]
  have hlog : Real.log (1 / 100 : ℝ) = -Real.log 100 := by
    rw [one_div, Real.log_inv]
  rw [hlog]
  have hlogpos : (0 : ℝ) ≤ Real.log 100 := Real.log_nonneg (by norm_num)
  have hphi_b : (1 : ℝ) / 2 ≤ normCdf (-(1 / 2) + - -Real.log 100 + 1) := by
    have h := normCdf_mono (show (0 : ℝ) ≤ -(1 / 2) + - -Real.log 100 + 1 by linarith)
    rw [normCdf_zero] at h
    exact h
  have hphi_a1 : normCdf (-(1 / 2) + - -Real.log 100) ≤ 1 := normCdf_le_one _
  have hphi_a0 : 0 < normCdf (-(1 / 2) + - -Real.log 100) := normCdf_pos _
  have hP : (49 : ℝ) ≤ 100 * normCdf (-(1 / 2) + - -Real.log 100 + 1) -
      normCdf (-(1 / 2) + - -Real.log 100) := by linarith
  have hPpos : (0 : ℝ) < 100 * normCdf (-(1 / 2) + - -Real.log 100 + 1) -
      normCdf (-(1 / 2) + - -Real.log 100) := by linarith
  have hlt : normCdf (-(1 / 2) + - -Real.log 100) <
      100 * normCdf (-(1 / 2) + - -Real.log 100 + 1) -
        normCdf (-(1 / 2) + - -Real.log 100) := by linarith
  have hfrac := (div_lt_one hPpos).mpr hlt
  rw [neg_div]
  linarith


set_option maxRecDepth 4000 in
/-- C9 (counterexample): the full ordered filter pipeline, modelled from
the spec, is not idempotent.  On a single-date cross-section of three
near-the-money put-call pairs and one out-of-band call, the first pass
drops the negative-rate pair and assigns the out-of-band call the
median rate of the six near-the-money quotes; the second pass recomputes
that median over the four surviving near-the-money quotes and reassigns
a different rate, so running the pipeline twice differs from running it
once. -/
theorem fullPipeline_not_idempotent :
    fullPipeline (fullPipeline qs9) ≠ fullPipeline qs9 := by with_unfolding_all decide

/-- C9 (amended): each purely row-local filter stage — zero-bid,
maturity bounds, IV bounds, moneyness bounds and negative-time-value —
is idempotent on every quote set; the failure of idempotence of the
full list comes from the stages that recompute statistics (medians,
fitted curves) over the currently-surviving set. -/
theorem rowLocal_stages_idempotent (qs : List Quote9) :
    stage_zero_bid (stage_zero_bid qs) = stage_zero_bid qs ∧
    stage_maturity (stage_maturity qs) = stage_maturity qs ∧
    stage_iv (stage_iv qs) = stage_iv qs ∧
    stage_moneyness (stage_moneyness qs) = stage_moneyness qs ∧
    stage_time_value (stage_time_value qs) = stage_time_value qs := by
  refine ⟨?_, ?_, ?_, ?_, ?_⟩ <;>
    simp [stage_zero_bid, stage_maturity, stage_iv, stage_moneyness, stage_time_value,
      List.filter_filter]
